import Mathlib

/-!
Verification of the png-sequencer timeline engine.

The source is a React component (`PngSequencer`) whose logic-bearing core is
a playback timeline engine: a current frame index, a playback state, a
stop-at-frame target, a pending stop flag, and a timer-driven tick callback.
We embed that engine shallowly: React state cells and refs become fields of
an explicit `EngineState` record, each imperative operation becomes a pure
state-transformer, and the `setInterval` tick callback becomes the `tick`
function (the functional updater passed to `setCurrentFrame` followed by the
`pendingStopRef` commit block, read sequentially).  The frame list is only
ever read through its length, so it is represented by a natural number `N`.
JavaScript numbers used for frame indices are embedded as `Int` (all the
arithmetic involved is integral); the floating-point frame-interval
computation is embedded by an idealized IEEE value type `FloatVal` over `ℚ`
(finite values exact, plus infinities and NaN), which models exactly the
comparisons and divisions the source performs.
-/

namespace PngSeq

/-- Playback states of the engine, from `type PlaybackState` in the source. -/
inductive PlaybackState where
  | idle
  | playing
  | paused
  | stopped
deriving DecidableEq

/-- The engine's mutable state: the `currentFrame` and `playbackState` React
state cells, the `isPlaying` state cell, and the `stopAtRef` and
`pendingStopRef` mutable refs. -/
structure EngineState where
  currentFrame : Int
  isPlaying : Bool
  playbackState : PlaybackState
  stopAt : Option Int
  pendingStop : Option PlaybackState
deriving DecidableEq

/-- `const clamp = (value, min, max) => Math.min(Math.max(value, min), max)`. -/
def clamp (value lo hi : Int) : Int :=
  min (max value lo) hi

/-- `const safeLastIndex = Math.max(frames.length - 1, 0)`. -/
def safeLastIndex (N : Nat) : Int :=
  max ((N : Int) - 1) 0

/-- `clampFrame`: `frames.length === 0 ? 0 : clamp(frameIndex, 0, safeLastIndex)`. -/
def clampFrame (N : Nat) (frameIndex : Int) : Int :=
  if N = 0 then 0 else clamp frameIndex 0 (safeLastIndex N)

/-- Initial state at construction: `useState(() => clampFrame(initialFrame))`,
`isPlaying = false`, `playbackState = 'idle'`, both refs null. -/
def initState (N : Nat) (initialFrame : Int) : EngineState :=
  { currentFrame := clampFrame N initialFrame
    isPlaying := false
    playbackState := .idle
    stopAt := none
    pendingStop := none }

/-- `transitionTo`: sets `playbackState`, keeping the previous value object
when it already equals the requested one (the dedup only suppresses a
redundant notification; the resulting value is the same either way). -/
def transitionTo (state : PlaybackState) (s : EngineState) : EngineState :=
  { s with playbackState := if s.playbackState = state then s.playbackState else state }

/-- `pauseInternal`: `setIsPlaying(false); transitionTo('paused')`. -/
def pauseInternal (s : EngineState) : EngineState :=
  transitionTo .paused { s with isPlaying := false }

/-- `stopInternal`: `setIsPlaying(false); setCurrentFrame(0);
stopAtRef.current = null; transitionTo('stopped')`. -/
def stopInternal (s : EngineState) : EngineState :=
  transitionTo .stopped { s with isPlaying := false, currentFrame := 0, stopAt := none }

/-- `play(options?)`: no-op when the frame list is empty; otherwise store the
clamped `stopAtFrame` (or clear the target when none is supplied), set
`isPlaying`, transition to `'playing'`. -/
def play (N : Nat) (stopAtFrame : Option Int) (s : EngineState) : EngineState :=
  if N = 0 then s
  else
    transitionTo .playing
      { s with stopAt := stopAtFrame.map (clampFrame N), isPlaying := true }

/-- `restart()`: `setCurrentFrame(0); play()`. -/
def restart (N : Nat) (s : EngineState) : EngineState :=
  play N none { s with currentFrame := 0 }

/-- `pause()`: delegates to `pauseInternal`. -/
def pause (s : EngineState) : EngineState :=
  pauseInternal s

/-- `stop()`: delegates to `stopInternal`. -/
def stop (s : EngineState) : EngineState :=
  stopInternal s

/-- `goToFrame(frameIndex, options?)`: `setCurrentFrame(clampFrame(frameIndex))`,
then `pauseInternal()` when `options?.autoPause` is set. -/
def goToFrame (N : Nat) (frameIndex : Int) (autoPause : Bool) (s : EngineState) : EngineState :=
  let s1 := { s with currentFrame := clampFrame N frameIndex }
  if autoPause then pauseInternal s1 else s1

/-- The functional updater passed to `setCurrentFrame` inside the
`setInterval` callback: computes `next`, consults the stop-at target
(`reachedStopAt` is the short-circuit `typeof stopAtTarget === 'number' &&
next >= stopAtTarget`, expanded here as a match on `stopAt`), then the
loop/clamp policy, recording any pending transition in `pendingStop`. -/
def tickAdvance (N : Nat) (loop : Bool) (s : EngineState) : EngineState :=
  if N = 0 then s
  else
    let lastIndex : Int := (N : Int) - 1
    let next := s.currentFrame + 1
    match s.stopAt with
    | some stopAtTarget =>
      if stopAtTarget ≤ next then
        { s with currentFrame := clamp stopAtTarget 0 lastIndex, pendingStop := some .paused }
      else if lastIndex < next then
        if loop then { s with currentFrame := 0 }
        else { s with currentFrame := lastIndex, pendingStop := some .stopped }
      else
        { s with currentFrame := next, pendingStop := none }
    | none =>
      if lastIndex < next then
        if loop then { s with currentFrame := 0 }
        else { s with currentFrame := lastIndex, pendingStop := some .stopped }
      else
        { s with currentFrame := next, pendingStop := none }

/-- The `if (pendingStopRef.current)` commit block at the end of the tick
callback: when a pending transition exists, clear both refs, stop the timer
(`setIsPlaying(false)`) and commit the transition. -/
def tickCommit (s : EngineState) : EngineState :=
  match s.pendingStop with
  | some nextState =>
    transitionTo nextState { s with pendingStop := none, stopAt := none, isPlaying := false }
  | none => s

/-- One full timer tick: the `setCurrentFrame` updater followed by the
pending-stop commit. -/
def tick (N : Nat) (loop : Bool) (s : EngineState) : EngineState :=
  tickCommit (tickAdvance N loop s)

/-- The timer only fires while armed: the interval effect arms the timer
exactly when `isPlaying` holds (and the interval is finite, which is the
case whenever `N > 0`). -/
def tickIfArmed (N : Nat) (loop : Bool) (s : EngineState) : EngineState :=
  if s.isPlaying then tick N loop s else s

/-- The frame-list reconfiguration effect: when the list becomes empty,
`stopInternal()`; otherwise `setCurrentFrame((prev) => clampFrame(prev))`. -/
def framesChanged (N : Nat) (s : EngineState) : EngineState :=
  if N = 0 then stopInternal s
  else { s with currentFrame := clampFrame N s.currentFrame }

/-- Engine commands: the imperative API plus timer ticks and frame-list
length changes. -/
inductive Cmd where
  | play (stopAtFrame : Option Int)
  | pause
  | stop
  | restart
  | goToFrame (frameIndex : Int) (autoPause : Bool)
  | tick
  | setFrames (newLen : Nat)

/-- One step of the engine on a frame-list length and a state. -/
def stepCmd (loop : Bool) : Nat × EngineState → Cmd → Nat × EngineState
  | (N, s), .play o => (N, play N o s)
  | (N, s), .pause => (N, pause s)
  | (N, s), .stop => (N, stop s)
  | (N, s), .restart => (N, restart N s)
  | (N, s), .goToFrame i ap => (N, goToFrame N i ap s)
  | (N, s), .tick => (N, tick N loop s)
  | (_, s), .setFrames m => (m, framesChanged m s)

/-- Run a sequence of commands from a freshly constructed engine. -/
def runCmds (loop : Bool) (N : Nat) (initialFrame : Int) (cmds : List Cmd) :
    Nat × EngineState :=
  cmds.foldl (stepCmd loop) (N, initState N initialFrame)

/-- Idealized IEEE double values as used by the `frameInterval` computation:
finite values are represented exactly by rationals (no rounding is relevant
to the properties at stake), plus the two infinities and NaN. -/
inductive FloatVal where
  | finite (q : ℚ)
  | posInf
  | negInf
  | nan
deriving DecidableEq

/-- IEEE comparison `x > 0`: false for NaN, false for `-∞`, `0`, negatives. -/
def FloatVal.gtZero : FloatVal → Bool
  | .finite q => decide (0 < q)
  | .posInf => true
  | .negInf => false
  | .nan => false

/-- JavaScript truthiness of a number: `0`, `-0` and `NaN` are falsy. -/
def FloatVal.truthy : FloatVal → Bool
  | .finite q => decide (q ≠ 0)
  | .posInf => true
  | .negInf => true
  | .nan => false

/-- IEEE division of a float by a positive integer (`duration / frames.length`
with `frames.length > 0`): finite by finite is exact, infinities and NaN
propagate. -/
def FloatVal.divByNat (x : FloatVal) (n : Nat) : FloatVal :=
  match x with
  | .finite q => if n = 0 then .nan else .finite (q / n)
  | .posInf => .posInf
  | .negInf => .negInf
  | .nan => .nan

/-- IEEE division `1000 / x`: `1000 / ±∞ = ±0` (modelled as the rational 0),
`1000 / 0 = +∞`, NaN propagates, finite nonzero is exact. -/
def oneThousandDiv : FloatVal → FloatVal
  | .finite q => if q = 0 then .posInf else .finite (1000 / q)
  | .posInf => .finite 0
  | .negInf => .finite 0
  | .nan => .nan

/-- `const DEFAULT_FPS = 24`. -/
def DEFAULT_FPS : FloatVal := .finite 24

/-- The `frameInterval` memo: `∞` when the frame list is empty;
`duration / frames.length` when `duration && duration > 0`; otherwise
`1000 / safeFps` with `safeFps = fps > 0 ? fps : DEFAULT_FPS`. -/
def frameInterval (N : Nat) (fps : FloatVal) (duration : Option FloatVal) : FloatVal :=
  if N = 0 then .posInf
  else if (match duration with
           | some d => d.truthy && d.gtZero
           | none => false) then
    (duration.getD (.finite 0)).divByNat N
  else
    let safeFps := if fps.gtZero then fps else DEFAULT_FPS
    oneThousandDiv safeFps

/-- The frame-index invariant: `0 <= currentFrameIndex <= max(N-1, 0)`. -/
def FrameInv (N : Nat) (s : EngineState) : Prop :=
  0 ≤ s.currentFrame ∧ s.currentFrame ≤ safeLastIndex N

/-- Spec section 4.1: `restart()` resets `currentFrameIndex` to 0, then
performs `play()` with no stop target. -/
def restartSpec (N : Nat) (s : EngineState) : EngineState :=
  play N none { s with currentFrame := 0 }

/-!  Helper lemmas about the engine's state transformers. -/

theorem transitionTo_eq (st : PlaybackState) (s : EngineState) :
    transitionTo st s = { s with playbackState := st } := by
  unfold transitionTo
  by_cases h : s.playbackState = st <;> simp [h]

theorem clamp_nonneg_le (v hi : Int) (h : 0 ≤ hi) :
    0 ≤ clamp v 0 hi ∧ clamp v 0 hi ≤ hi := by
  unfold clamp; omega

theorem clamp_of_mem (v lo hi : Int) (h1 : lo ≤ v) (h2 : v ≤ hi) :
    clamp v lo hi = v := by
  unfold clamp; omega

theorem clampFrame_bounds (N : Nat) (i : Int) :
    0 ≤ clampFrame N i ∧ clampFrame N i ≤ safeLastIndex N := by
  unfold clampFrame clamp safeLastIndex
  split <;> omega

theorem clampFrame_of_mem (N : Nat) (i : Int) (hN : 0 < N)
    (h1 : 0 ≤ i) (h2 : i ≤ (N : Int) - 1) : clampFrame N i = i := by
  unfold clampFrame clamp safeLastIndex
  rw [if_neg (by omega)]
  omega

theorem pendingStop_erase (s : EngineState) (h : s.pendingStop = none) :
    { s with pendingStop := none } = s := by
  rw [← h]

theorem tick_step_noStop (N : Nat) (loop : Bool) (s : EngineState)
    (hN : 0 < N) (hstop : s.stopAt = none)
    (hlt : s.currentFrame + 1 ≤ (N : Int) - 1) :
    tick N loop s = { s with currentFrame := s.currentFrame + 1, pendingStop := none } := by
  unfold tick tickAdvance tickCommit
  rw [if_neg (by omega), hstop]
  simp only
  rw [if_neg (by omega)]

theorem tick_step_withStop (N : Nat) (loop : Bool) (s : EngineState) (t : Int)
    (hN : 0 < N) (hstop : s.stopAt = some t)
    (hlt : s.currentFrame + 1 < t) (hle : t ≤ (N : Int) - 1) :
    tick N loop s = { s with currentFrame := s.currentFrame + 1, pendingStop := none } := by
  unfold tick tickAdvance tickCommit
  rw [if_neg (by omega), hstop]
  simp only
  rw [if_neg (by omega), if_neg (by omega)]

theorem tick_halt_at_target (N : Nat) (loop : Bool) (s : EngineState) (t : Int)
    (hN : 0 < N) (hstop : s.stopAt = some t)
    (hge : t ≤ s.currentFrame + 1) (h0 : 0 ≤ t) (hle : t ≤ (N : Int) - 1) :
    tick N loop s = { s with currentFrame := t, isPlaying := false,
                             playbackState := .paused, stopAt := none,
                             pendingStop := none } := by
  unfold tick tickAdvance tickCommit
  rw [if_neg (by omega), hstop]
  simp only
  rw [if_pos (by omega)]
  simp only [transitionTo_eq]
  rw [clamp_of_mem t 0 ((N:Int)-1) h0 hle]

theorem tick_wrap_loop (N : Nat) (s : EngineState)
    (hN : 0 < N) (hstop : s.stopAt = none) (hpend : s.pendingStop = none)
    (hend : (N : Int) - 1 < s.currentFrame + 1) :
    tick N true s = { s with currentFrame := 0 } := by
  unfold tick tickAdvance tickCommit
  rw [if_neg (by omega), hstop]
  simp only
  rw [if_pos (by omega)]
  simp [hpend]

theorem tick_end_noLoop (N : Nat) (s : EngineState)
    (hN : 0 < N) (hstop : s.stopAt = none)
    (hend : (N : Int) - 1 < s.currentFrame + 1) :
    tick N false s = { s with currentFrame := (N : Int) - 1, isPlaying := false,
                              playbackState := .stopped, stopAt := none,
                              pendingStop := none } := by
  unfold tick tickAdvance tickCommit
  rw [if_neg (by omega), hstop]
  simp only
  rw [if_pos (by omega)]
  simp only [Bool.false_eq_true, if_false, transitionTo_eq]

theorem play_eq (N : Nat) (o : Option Int) (s : EngineState) (hN : 0 < N) :
    play N o s = { s with stopAt := o.map (clampFrame N), isPlaying := true,
                          playbackState := .playing } := by
  unfold play
  rw [if_neg (by omega), transitionTo_eq]

theorem tick_iter_noStop (N : Nat) (loop : Bool) (k : Nat) :
    ∀ s : EngineState, 0 < N → s.stopAt = none → s.pendingStop = none →
    s.currentFrame + k ≤ (N : Int) - 1 →
    (tick N loop)^[k] s
      = { s with currentFrame := s.currentFrame + k, pendingStop := none } := by
  induction k with
  | zero =>
    intro s hN hstop hpend hle
    simp only [Function.iterate_zero, id_eq, Nat.cast_zero, add_zero]
    exact (pendingStop_erase s hpend).symm
  | succ k ih =>
    intro s hN hstop hpend hle
    rw [Function.iterate_succ_apply]
    rw [tick_step_noStop N loop s hN hstop (by push_cast at hle; omega)]
    rw [ih { s with currentFrame := s.currentFrame + 1, pendingStop := none } hN hstop rfl
      (by show s.currentFrame + 1 + (k : Int) ≤ (N : Int) - 1; push_cast at hle; omega)]
    simp only [EngineState.mk.injEq, and_true, true_and]
    push_cast
    ring



theorem tick_iter_withStop (N : Nat) (loop : Bool) (t : Int) (k : Nat) :
    ∀ s : EngineState, 0 < N → s.stopAt = some t → s.pendingStop = none →
    s.currentFrame + k < t → t ≤ (N : Int) - 1 →
    (tick N loop)^[k] s
      = { s with currentFrame := s.currentFrame + k, pendingStop := none } := by
  induction k with
  | zero =>
    intro s hN hstop hpend hlt hle
    simp only [Function.iterate_zero, id_eq, Nat.cast_zero, add_zero]
    exact (pendingStop_erase s hpend).symm
  | succ k ih =>
    intro s hN hstop hpend hlt hle
    rw [Function.iterate_succ_apply]
    rw [tick_step_withStop N loop s t hN hstop (by push_cast at hlt; omega) hle]
    rw [ih { s with currentFrame := s.currentFrame + 1, pendingStop := none } hN hstop rfl
      (by show s.currentFrame + 1 + (k : Int) < t; push_cast at hlt; omega) hle]
    simp only [EngineState.mk.injEq, and_true, true_and]
    push_cast
    ring

theorem tick_N0 (loop : Bool) (s : EngineState) (hpend : s.pendingStop = none) :
    tick 0 loop s = s := by
  unfold tick tickAdvance tickCommit
  simp [hpend]

/-- Claim C3: with `loop = false` and no stop target, a tick from an index at
or past the last index clamps to `N - 1`, transitions to `'stopped'`, disarms
the timer, and a disarmed engine takes no further steps (so the transition
happens exactly once). -/
theorem claim_C3 (N : Nat) (s : EngineState)
    (hN : 0 < N) (hidx : (N : Int) - 1 ≤ s.currentFrame) (hstop : s.stopAt = none) :
    (tick N false s).currentFrame = (N : Int) - 1 ∧
    (tick N false s).playbackState = .stopped ∧
    (tick N false s).isPlaying = false ∧
    tickIfArmed N false (tick N false s) = tick N false s := by
  rw [tick_end_noLoop N s hN hstop (by omega)]
  refine ⟨rfl, rfl, rfl, ?_⟩
  unfold tickIfArmed
  simp

/-- Claim C5: with `loop = true` and no stop target, ticking `N` times from
index 0 returns to index 0, and the playback state is `'playing'` (in
particular never `'stopped'`) after every one of those ticks. -/
theorem claim_C5 (N : Nat) (s : EngineState)
    (hN : 0 < N) (h0 : s.currentFrame = 0) (hpend : s.pendingStop = none) :
    (∀ k, k ≤ N → ((tick N true)^[k] (play N none s)).playbackState = .playing) ∧
    ((tick N true)^[N] (play N none s)).currentFrame = 0 := by
  obtain ⟨m, rfl⟩ : ∃ m, N = m + 1 := ⟨N - 1, by omega⟩
  have hplay : play (m + 1) none s
      = { s with stopAt := none, isPlaying := true, playbackState := .playing } := by
    rw [play_eq _ _ _ hN]
    rfl
  have hiter : ∀ k, k ≤ m →
      (tick (m + 1) true)^[k] (play (m + 1) none s)
        = { s with currentFrame := (k : Int), stopAt := none, isPlaying := true,
                   playbackState := .playing, pendingStop := none } := by
    intro k hk
    rw [hplay, tick_iter_noStop (m + 1) true k
      { s with stopAt := none, isPlaying := true, playbackState := .playing } hN rfl hpend
      (by show s.currentFrame + (k : Int) ≤ ((m + 1 : Nat) : Int) - 1
          rw [h0]; push_cast; omega)]
    simp [h0]
  have hfull : (tick (m + 1) true)^[m + 1] (play (m + 1) none s)
      = { s with currentFrame := 0, stopAt := none, isPlaying := true,
                 playbackState := .playing, pendingStop := none } := by
    rw [Function.iterate_succ_apply', hiter m le_rfl]
    rw [tick_wrap_loop (m + 1) _ hN rfl rfl (by push_cast; omega)]
  refine ⟨?_, by rw [hfull]⟩
  intro k hk
  rcases Nat.lt_or_ge k (m + 1) with h | h
  · rw [hiter k (by omega)]
  · have : k = m + 1 := by omega
    subst this
    rw [hfull]

/-- Claim C10: calling `play(stopAtFrame = T)` with the index already at or
past `T` makes the very next tick jump (backward when past) to exactly `T`
and pause: the index becomes `T`, the state `'paused'`, the timer disarmed,
the target cleared. -/
theorem claim_C10 (N t : Nat) (loop : Bool) (s : EngineState)
    (hN : 0 < N) (ht : t < N) (hcur : (t : Int) ≤ s.currentFrame) :
    tick N loop (play N (some (t : Int)) s)
      = { s with currentFrame := (t : Int), isPlaying := false,
                 playbackState := .paused, stopAt := none, pendingStop := none } := by
  have hplay : play N (some (t : Int)) s
      = { s with stopAt := some ((t : Int)), isPlaying := true,
                 playbackState := .playing } := by
    rw [play_eq _ _ _ hN]
    simp [clampFrame_of_mem N (t : Int) hN (by positivity) (by push_cast; omega)]
  rw [hplay]
  rw [tick_halt_at_target N loop _ (t : Int) hN rfl
    (by show (t : Int) ≤ s.currentFrame + 1; omega) (by positivity) (by push_cast; omega)]

/-- Claim C2: after `play(stopAtFrame = T)` with `0 ≤ T ≤ N-1`, ticking from
index 0 keeps the engine playing for every tick before the halting one and
halts exactly at index `T` with state `'paused'`, timer disarmed and target
cleared, for either value of `loop`.  The halting tick is tick number
`max T 1` (a target of 0 is reached on the first tick). -/
theorem claim_C2 (N t : Nat) (loop : Bool) (s : EngineState)
    (hN : 0 < N) (ht : t < N) (h0 : s.currentFrame = 0) (hpend : s.pendingStop = none) :
    (∀ k, k < max t 1 →
        ((tick N loop)^[k] (play N (some (t : Int)) s)).isPlaying = true ∧
        ((tick N loop)^[k] (play N (some (t : Int)) s)).playbackState = .playing) ∧
    ((tick N loop)^[max t 1] (play N (some (t : Int)) s)).currentFrame = (t : Int) ∧
    ((tick N loop)^[max t 1] (play N (some (t : Int)) s)).playbackState = .paused ∧
    ((tick N loop)^[max t 1] (play N (some (t : Int)) s)).isPlaying = false ∧
    ((tick N loop)^[max t 1] (play N (some (t : Int)) s)).stopAt = none := by
  have hplay : play N (some (t : Int)) s
      = { s with stopAt := some ((t : Int)), isPlaying := true,
                 playbackState := .playing } := by
    rw [play_eq _ _ _ hN]
    simp [clampFrame_of_mem N (t : Int) hN (by positivity) (by push_cast; omega)]
  rcases Nat.eq_zero_or_pos t with rfl | hpos
  · have hmax : max 0 1 = 1 := rfl
    rw [hmax]
    refine ⟨?_, ?_⟩
    · intro k hk
      have : k = 0 := by omega
      subst this
      rw [Function.iterate_zero, id_eq, hplay]
      exact ⟨rfl, rfl⟩
    · rw [Function.iterate_one, hplay]
      rw [tick_halt_at_target N loop _ ((0 : Nat) : Int) hN rfl
        (by show ((0 : Nat) : Int) ≤ s.currentFrame + 1; rw [h0]; norm_num)
        (by norm_num) (by push_cast; omega)]
      exact ⟨rfl, rfl, rfl, rfl⟩
  · have hmax : max t 1 = t := by omega
    rw [hmax]
    have hiter : ∀ k, k < t →
        (tick N loop)^[k] (play N (some (t : Int)) s)
          = { s with currentFrame := (k : Int), stopAt := some ((t : Int)),
                     isPlaying := true, playbackState := .playing,
                     pendingStop := none } := by
      intro k hk
      rw [hplay, tick_iter_withStop N loop ((t : Int)) k
        { s with stopAt := some ((t : Int)), isPlaying := true, playbackState := .playing }
        hN rfl hpend
        (by show s.currentFrame + (k : Int) < (t : Int); rw [h0]; push_cast; omega)
        (by push_cast; omega)]
      simp [h0]
    refine ⟨fun k hk => by rw [hiter k hk]; exact ⟨rfl, rfl⟩, ?_⟩
    obtain ⟨u, rfl⟩ : ∃ u, t = u + 1 := ⟨t - 1, by omega⟩
    rw [Function.iterate_succ_apply', hiter u (by omega)]
    rw [tick_halt_at_target N loop _ (((u + 1 : Nat)) : Int) hN rfl
      (by show (((u + 1 : Nat)) : Int) ≤ (u : Int) + 1; push_cast; omega)
      (by positivity) (by push_cast; omega)]
    exact ⟨rfl, rfl, rfl, rfl⟩

theorem tickCommit_frame (s : EngineState) :
    (tickCommit s).currentFrame = s.currentFrame := by
  unfold tickCommit
  cases hp : s.pendingStop <;> simp [hp, transitionTo_eq]

theorem tick_inv (N : Nat) (loop : Bool) (s : EngineState)
    (h : FrameInv N s) : FrameInv N (tick N loop s) := by
  unfold FrameInv safeLastIndex at h ⊢
  unfold tick
  rw [tickCommit_frame]
  unfold tickAdvance clamp
  split
  · omega
  · cases hs : s.stopAt with
    | none =>
      cases loop <;> by_cases h2 : ((N : Int) - 1 < s.currentFrame + 1) <;>
        simp [h2] <;> omega
    | some t =>
      by_cases h1 : (t ≤ s.currentFrame + 1) <;>
        cases loop <;> by_cases h2 : ((N : Int) - 1 < s.currentFrame + 1) <;>
        simp [h1, h2] <;> omega

theorem pauseInternal_frame (s : EngineState) :
    (pauseInternal s).currentFrame = s.currentFrame := by
  unfold pauseInternal
  rw [transitionTo_eq]

theorem play_frame (N : Nat) (o : Option Int) (s : EngineState) :
    (play N o s).currentFrame = s.currentFrame := by
  unfold play
  split
  · rfl
  · rw [transitionTo_eq]

theorem stopInternal_frame (s : EngineState) : (stopInternal s).currentFrame = 0 := by
  unfold stopInternal
  rw [transitionTo_eq]

theorem stop_frame (s : EngineState) : (stop s).currentFrame = 0 := by
  unfold stop
  rw [stopInternal_frame]

theorem restart_frame (N : Nat) (s : EngineState) : (restart N s).currentFrame = 0 := by
  unfold restart
  rw [play_frame]

theorem goToFrame_frame (N : Nat) (i : Int) (ap : Bool) (s : EngineState) :
    (goToFrame N i ap s).currentFrame = clampFrame N i := by
  unfold goToFrame
  split
  · rw [pauseInternal_frame]
  · rfl

theorem framesChanged_frame (N : Nat) (s : EngineState) :
    (framesChanged N s).currentFrame = clampFrame N s.currentFrame := by
  unfold framesChanged clampFrame
  split
  · rw [stopInternal_frame]
  · rfl

theorem safeLastIndex_nonneg (N : Nat) : 0 ≤ safeLastIndex N := by
  unfold safeLastIndex
  omega

theorem stepCmd_inv (loop : Bool) (p : Nat × EngineState) (c : Cmd)
    (h : FrameInv p.1 p.2) : FrameInv (stepCmd loop p c).1 (stepCmd loop p c).2 := by
  obtain ⟨N, s⟩ := p
  cases c with
  | play o =>
    simp only [stepCmd]
    unfold FrameInv at h ⊢
    rw [play_frame]
    exact h
  | pause =>
    simp only [stepCmd]
    unfold FrameInv at h ⊢
    unfold pause
    rw [pauseInternal_frame]
    exact h
  | stop =>
    simp only [stepCmd]
    unfold FrameInv
    rw [stop_frame]
    exact ⟨le_refl 0, safeLastIndex_nonneg N⟩
  | restart =>
    simp only [stepCmd]
    unfold FrameInv
    rw [restart_frame]
    exact ⟨le_refl 0, safeLastIndex_nonneg N⟩
  | goToFrame i ap =>
    simp only [stepCmd]
    unfold FrameInv
    rw [goToFrame_frame]
    exact clampFrame_bounds N i
  | tick =>
    exact tick_inv N loop s h
  | setFrames m =>
    simp only [stepCmd]
    unfold FrameInv
    rw [framesChanged_frame]
    exact clampFrame_bounds m s.currentFrame

/-- Claim C1: along every command sequence (play with any stop target, pause,
stop, restart, goToFrame with any integer, ticks, and frame-list length
changes) from a freshly constructed engine with any initial frame, the
current frame index stays within `[0, max(N-1, 0)]` for the current
frame-list length `N`. -/
theorem claim_C1 (loop : Bool) (N : Nat) (initialFrame : Int) (cmds : List Cmd) :
    0 ≤ (runCmds loop N initialFrame cmds).2.currentFrame ∧
    (runCmds loop N initialFrame cmds).2.currentFrame
      ≤ max (((runCmds loop N initialFrame cmds).1 : Int) - 1) 0 := by
  have hstep : ∀ (p : Nat × EngineState), FrameInv p.1 p.2 →
      FrameInv (cmds.foldl (stepCmd loop) p).1 (cmds.foldl (stepCmd loop) p).2 := by
    induction cmds with
    | nil => intro p hp; exact hp
    | cons c cs ih =>
      intro p hp
      rw [List.foldl_cons]
      exact ih _ (stepCmd_inv loop p c hp)
  have hinit : FrameInv N (initState N initialFrame) := by
    have hb := clampFrame_bounds N initialFrame
    unfold FrameInv initState
    exact hb
  have := hstep (N, initState N initialFrame) hinit
  unfold FrameInv safeLastIndex at this
  unfold runCmds
  exact this

/-- Claim C6: `stop()` always resets the frame index to 0, sets state
`'stopped'`, clears the stop target and disarms the timer, from any prior
state. -/
theorem claim_C6 (s : EngineState) :
    (stop s).currentFrame = 0 ∧ (stop s).playbackState = .stopped ∧
    (stop s).stopAt = none ∧ (stop s).isPlaying = false := by
  have h : stop s = { s with isPlaying := false, currentFrame := 0, stopAt := none,
                             playbackState := .stopped } := by
    unfold stop stopInternal
    rw [transitionTo_eq]
  rw [h]
  exact ⟨rfl, rfl, rfl, rfl⟩

/-- Claim C4 counterexample: with an empty frame list the engine is in the
reset state (index 0, `'stopped'`), and `pause()` is not a no-op there: it
changes `playbackState` to `'paused'`. -/
theorem claim_C4_counterexample :
    pause (framesChanged 0 (initState 0 0)) ≠ framesChanged 0 (initState 0 0) ∧
    (framesChanged 0 (initState 0 0)).playbackState = .stopped ∧
    (pause (framesChanged 0 (initState 0 0))).playbackState = .paused := by
  refine ⟨by decide, by decide, by decide⟩

/-- Claim C4 amended: with an empty frame list (where the current frame index
is 0 in every reachable state), `play`, `restart` and `goToFrame` without
`autoPause` are no-ops; `pause` (and `goToFrame` with `autoPause`) still
applies its pause semantics, and `stop`'s reset semantics still apply. -/
theorem claim_C4_amended (s : EngineState) (o : Option Int) (i j : Int)
    (h0 : s.currentFrame = 0) :
    play 0 o s = s ∧
    restart 0 s = s ∧
    goToFrame 0 i false s = s ∧
    pause s = { s with isPlaying := false, playbackState := .paused } ∧
    goToFrame 0 j true s = { s with isPlaying := false, playbackState := .paused } ∧
    stop s = { s with isPlaying := false, currentFrame := 0, stopAt := none,
                      playbackState := .stopped } := by
  have hplay : play 0 o s = s := by
    unfold play
    rw [if_pos rfl]
  have hcf : ({ s with currentFrame := 0 } : EngineState) = s := by
    rw [← h0]
  refine ⟨hplay, ?_, ?_, ?_, ?_, ?_⟩
  · unfold restart play
    rw [if_pos rfl, hcf]
  · unfold goToFrame clampFrame
    rw [if_neg (by simp), if_pos rfl, hcf]
  · unfold pause pauseInternal
    rw [transitionTo_eq]
  · unfold goToFrame clampFrame pauseInternal
    rw [if_pos rfl, if_pos rfl, transitionTo_eq, hcf]
  · unfold stop stopInternal
    rw [transitionTo_eq]

/-- Claim C4 amended, witness at the concrete empty-list reset state. -/
theorem claim_C4_amended_witness :
    (framesChanged 0 (initState 0 0)).currentFrame = 0 ∧
    (play 0 (some 7) (framesChanged 0 (initState 0 0)) = framesChanged 0 (initState 0 0) ∧
     restart 0 (framesChanged 0 (initState 0 0)) = framesChanged 0 (initState 0 0) ∧
     goToFrame 0 (-3) false (framesChanged 0 (initState 0 0)) = framesChanged 0 (initState 0 0) ∧
     pause (framesChanged 0 (initState 0 0))
       = { (framesChanged 0 (initState 0 0)) with
           isPlaying := false,
           playbackState := .paused } ∧
     goToFrame 0 5 true (framesChanged 0 (initState 0 0))
       = { (framesChanged 0 (initState 0 0)) with
           isPlaying := false,
           playbackState := .paused } ∧
     stop (framesChanged 0 (initState 0 0))
       = { (framesChanged 0 (initState 0 0)) with
           isPlaying := false,
           currentFrame := 0,
           stopAt := none,
           playbackState := .stopped }) :=
  ⟨by decide, claim_C4_amended (framesChanged 0 (initState 0 0)) (some 7) (-3) 5 (by decide)⟩

/-- Claim C9: with a non-empty frame list, `restart()` coincides with the
spec's reset-then-play description; in particular any stale stop target is
cleared and the run starts playing from index 0. -/
theorem claim_C9 (N : Nat) (s : EngineState) (hN : 0 < N) :
    restart N s = restartSpec N s ∧
    (restart N s).stopAt = none ∧
    (restart N s).currentFrame = 0 ∧
    (restart N s).playbackState = .playing ∧
    (restart N s).isPlaying = true := by
  have h : restart N s = { s with currentFrame := 0, stopAt := none, isPlaying := true,
                                  playbackState := .playing } := by
    unfold restart
    rw [play_eq _ _ _ hN]
    rfl
  exact ⟨rfl, by rw [h], by rw [h], by rw [h], by rw [h]⟩

/-- Claim C9 witness: a concrete engine with a stale stop target left from an
earlier `play(stopAtFrame = 1)`; `restart` clears it. -/
theorem claim_C9_witness :
    (0 < 2) ∧
    (restart 2 (play 2 (some 1) (initState 2 0))
       = restartSpec 2 (play 2 (some 1) (initState 2 0)) ∧
     (restart 2 (play 2 (some 1) (initState 2 0))).stopAt = none ∧
     (restart 2 (play 2 (some 1) (initState 2 0))).currentFrame = 0 ∧
     (restart 2 (play 2 (some 1) (initState 2 0))).playbackState = .playing ∧
     (restart 2 (play 2 (some 1) (initState 2 0))).isPlaying = true) :=
  ⟨by decide, claim_C9 2 (play 2 (some 1) (initState 2 0)) (by decide)⟩

/-- Claim C7 counterexample: `fps = +∞` is a non-finite frame rate, yet it
passes the code's `fps > 0` guard, so the computed interval is
`1000 / ∞ = 0` — zero, not the default `1000 / 24`. -/
theorem claim_C7_counterexample :
    frameInterval 1 .posInf none = .finite 0 ∧
    FloatVal.finite 0 ≠ FloatVal.finite (1000 / 24) := by
  refine ⟨rfl, ?_⟩
  simp only [ne_eq, FloatVal.finite.injEq]
  norm_num

/-- Claim C7 amended: for every frame rate rejected by the IEEE test
`fps > 0` — zero, negative, or NaN, but not `+∞` — with no duration override
and a non-empty frame list, the interval falls back to `1000 / 24`, a
positive finite value. -/
theorem claim_C7_amended (N : Nat) (fps : FloatVal)
    (hN : 0 < N) (hfps : fps.gtZero = false) :
    frameInterval N fps none = .finite (1000 / 24) ∧ (0 : ℚ) < 1000 / 24 := by
  refine ⟨?_, by norm_num⟩
  simp [frameInterval, hN.ne', hfps, oneThousandDiv, DEFAULT_FPS]

/-- Claim C7 amended, witness at `N = 1`, `fps = NaN`. -/
theorem claim_C7_amended_witness :
    (0 < 1) ∧ FloatVal.gtZero .nan = false ∧
    (frameInterval 1 .nan none = .finite (1000 / 24) ∧ (0 : ℚ) < 1000 / 24) :=
  ⟨by decide, rfl, claim_C7_amended 1 .nan (by decide) rfl⟩

/-- Claim C8: the stop target is set only by a `play` invocation supplying
one (stored clamped), and is cleared exactly by `stop()`, by a `play` (or
`restart`) without a target, and by the tick that reaches the target; `pause`
and `goToFrame` never change it, and a tick with an in-range target keeps it
unchanged until the tick whose `next` index reaches it (a loop-wrap can never
occur while an in-range target is armed, so no separate wrap case arises). -/
theorem claim_C8 :
    (∀ s : EngineState, (pause s).stopAt = s.stopAt) ∧
    (∀ (N : Nat) (i : Int) (ap : Bool) (s : EngineState),
      (goToFrame N i ap s).stopAt = s.stopAt) ∧
    (∀ s : EngineState, (stop s).stopAt = none) ∧
    (∀ (N : Nat) (s : EngineState), 0 < N → (play N none s).stopAt = none) ∧
    (∀ (N : Nat) (t : Int) (s : EngineState), 0 < N →
      (play N (some t) s).stopAt = some (clampFrame N t)) ∧
    (∀ (N : Nat) (s : EngineState), 0 < N → (restart N s).stopAt = none) ∧
    (∀ (N : Nat) (loop : Bool) (s : EngineState) (t : Int),
      0 < N → s.pendingStop = none → s.stopAt = some t →
      0 ≤ t → t ≤ (N : Int) - 1 →
      (tick N loop s).stopAt = if t ≤ s.currentFrame + 1 then none else some t) ∧
    (∀ (N : Nat) (loop : Bool) (s : EngineState),
      s.pendingStop = none → s.stopAt = none →
      (tick N loop s).stopAt = none) := by
  refine ⟨fun s => rfl, fun N i ap s => by cases ap <;> rfl, fun s => rfl,
    ?_, ?_, ?_, ?_, ?_⟩
  · intro N s hN
    unfold play
    rw [if_neg (by omega)]
    rfl
  · intro N t s hN
    unfold play
    rw [if_neg (by omega)]
    rfl
  · intro N s hN
    unfold restart play
    rw [if_neg (by omega)]
    rfl
  · intro N loop s t hN hpend hstop h0 hle
    by_cases hr : t ≤ s.currentFrame + 1
    · rw [if_pos hr, tick_halt_at_target N loop s t hN hstop hr h0 hle]
    · rw [if_neg hr, tick_step_withStop N loop s t hN hstop (by omega) hle]
      exact hstop
  · intro N loop s hpend hstop
    rcases Nat.eq_zero_or_pos N with rfl | hN
    · rw [tick_N0 loop s hpend]
      exact hstop
    · by_cases hend : ((N : Int) - 1 < s.currentFrame + 1)
      · cases loop
        · rw [tick_end_noLoop N s hN hstop hend]
        · rw [tick_wrap_loop N s hN hstop hpend hend]
          exact hstop
      · rw [tick_step_noStop N loop s hN hstop (by omega)]
        exact hstop

/-- Claim C8 witness: each clause instantiated at concrete inputs. -/
theorem claim_C8_witness :
    (pause (initState 3 1)).stopAt = (initState 3 1).stopAt ∧
    (goToFrame 3 2 true (initState 3 1)).stopAt = (initState 3 1).stopAt ∧
    (stop (initState 3 1)).stopAt = none ∧
    (play 3 none (initState 3 1)).stopAt = none ∧
    (play 3 (some 5) (initState 3 1)).stopAt = some (clampFrame 3 5) ∧
    (restart 3 (initState 3 1)).stopAt = none ∧
    (tick 3 false (play 3 (some 2) (initState 3 1))).stopAt
      = (if (2 : Int) ≤ (play 3 (some 2) (initState 3 1)).currentFrame + 1
         then none else some 2) ∧
    (tick 3 true (initState 3 1)).stopAt = none :=
  ⟨claim_C8.1 (initState 3 1),
   claim_C8.2.1 3 2 true (initState 3 1),
   claim_C8.2.2.1 (initState 3 1),
   claim_C8.2.2.2.1 3 (initState 3 1) (by decide),
   claim_C8.2.2.2.2.1 3 5 (initState 3 1) (by decide),
   claim_C8.2.2.2.2.2.1 3 (initState 3 1) (by decide),
   claim_C8.2.2.2.2.2.2.1 3 false (play 3 (some 2) (initState 3 1)) 2
     (by decide) (by decide) (by decide) (by decide) (by decide),
   claim_C8.2.2.2.2.2.2.2 3 true (initState 3 1) (by decide) (by decide)⟩

/-- Claim C2 witness: `N = 3`, target `T = 2`, `loop = true`, from a fresh
engine at index 0. -/
theorem claim_C2_witness :
    ((0 < 3) ∧ 2 < 3 ∧ (initState 3 0).currentFrame = 0 ∧
      (initState 3 0).pendingStop = none) ∧
    ((∀ k, k < max 2 1 →
        ((tick 3 true)^[k] (play 3 (some ((2 : Nat) : Int)) (initState 3 0))).isPlaying
          = true ∧
        ((tick 3 true)^[k] (play 3 (some ((2 : Nat) : Int)) (initState 3 0))).playbackState
          = .playing) ∧
     ((tick 3 true)^[max 2 1] (play 3 (some ((2 : Nat) : Int)) (initState 3 0))).currentFrame
       = ((2 : Nat) : Int) ∧
     ((tick 3 true)^[max 2 1] (play 3 (some ((2 : Nat) : Int)) (initState 3 0))).playbackState
       = .paused ∧
     ((tick 3 true)^[max 2 1] (play 3 (some ((2 : Nat) : Int)) (initState 3 0))).isPlaying
       = false ∧
     ((tick 3 true)^[max 2 1] (play 3 (some ((2 : Nat) : Int)) (initState 3 0))).stopAt
       = none) :=
  ⟨⟨by decide, by decide, by decide, by decide⟩,
   claim_C2 3 2 true (initState 3 0) (by decide) (by decide) (by decide) (by decide)⟩

/-- Claim C3 witness: `N = 4`, engine playing at the last index 3. -/
theorem claim_C3_witness :
    ((0 < 4) ∧
     ((4 : Nat) : Int) - 1
       ≤ (play 4 none (goToFrame 4 3 false (initState 4 0))).currentFrame ∧
     (play 4 none (goToFrame 4 3 false (initState 4 0))).stopAt = none) ∧
    ((tick 4 false (play 4 none (goToFrame 4 3 false (initState 4 0)))).currentFrame
       = ((4 : Nat) : Int) - 1 ∧
     (tick 4 false (play 4 none (goToFrame 4 3 false (initState 4 0)))).playbackState
       = .stopped ∧
     (tick 4 false (play 4 none (goToFrame 4 3 false (initState 4 0)))).isPlaying
       = false ∧
     tickIfArmed 4 false (tick 4 false (play 4 none (goToFrame 4 3 false (initState 4 0))))
       = tick 4 false (play 4 none (goToFrame 4 3 false (initState 4 0)))) :=
  ⟨⟨by decide, by decide, by decide⟩,
   claim_C3 4 (play 4 none (goToFrame 4 3 false (initState 4 0)))
     (by decide) (by decide) (by decide)⟩

/-- Claim C5 witness: `N = 3`, fresh engine, three ticks wrap back to 0. -/
theorem claim_C5_witness :
    ((0 < 3) ∧ (initState 3 0).currentFrame = 0 ∧
      (initState 3 0).pendingStop = none) ∧
    ((∀ k, k ≤ 3 →
        ((tick 3 true)^[k] (play 3 none (initState 3 0))).playbackState = .playing) ∧
     ((tick 3 true)^[3] (play 3 none (initState 3 0))).currentFrame = 0) :=
  ⟨⟨by decide, by decide, by decide⟩,
   claim_C5 3 (initState 3 0) (by decide) (by decide) (by decide)⟩

/-- Claim C10 witness: `N = 5`, index 4, `play(stopAtFrame = 2)`; the next
tick moves backward to 2 and pauses. -/
theorem claim_C10_witness :
    ((0 < 5) ∧ 2 < 5 ∧
      ((2 : Nat) : Int) ≤ (goToFrame 5 4 false (initState 5 0)).currentFrame) ∧
    tick 5 true (play 5 (some ((2 : Nat) : Int)) (goToFrame 5 4 false (initState 5 0)))
      = { (goToFrame 5 4 false (initState 5 0)) with
          currentFrame := ((2 : Nat) : Int),
          isPlaying := false,
          playbackState := .paused,
          stopAt := none,
          pendingStop := none } :=
  ⟨⟨by decide, by decide, by decide⟩,
   claim_C10 5 2 true (goToFrame 5 4 false (initState 5 0))
     (by decide) (by decide) (by decide)⟩

end PngSeq
